import Mathlib

/-!
Verification development for the parasnake distributed work-dispatch library.

The Python sources under src/parasnake are shallowly embedded:

* ps_message.py: the frame codec pipeline pickle → lzma → Fernet.  The three
  external libraries are modelled by their contracts: pickle as an injective
  self-describing serializer over the supported Python value domain, lzma as a
  lossless compressor with a magic header (so that decompressing non-lzma data
  fails), and Fernet as deterministic authenticated encryption (version byte,
  integrity tag over key and payload; the confidentiality component is
  irrelevant to the verified properties and is omitted).  Each stage fails with
  the distinct error kind the corresponding Python library raises
  (cryptography.fernet.InvalidToken, lzma.LZMAError, pickle.UnpicklingError).
* ps_server.py: the connection handler, the sweep loop and the heartbeat check
  as pure transition functions on an explicit coordinator state; user callbacks
  are recorded in the result rather than executed.
* ps_node.py: the request/reply exchange and the main-loop state machine.
* ps_config.py: configuration construction and JSON loading, with Python
  assert modelled as Except failure.

Python values carried in messages (tags, node ids, ints, floats, strings,
bools, byte strings, None, tuples, lists) are the inductive type PSValue;
Python lists are modelled as cons chains (pyNil / pyCons).  Replies are
modelled at value level: the handler replies with the value that the
corresponding ps_gen_* function in ps_message.py would encode.
-/

namespace Parasnake

/-- The enum PSMessageType from ps_message.py with its 12 variants. -/
inductive PSMessageType where
  | Heartbeat
  | HeartbeatOK
  | HeartbeatError
  | Init
  | InitOK
  | InitError
  | NewDataFromServer
  | NewResultFromNode
  | NodeNeedsMoreData
  | ResultOK
  | ConnectionError
  | Quit
  deriving DecidableEq, Repr

/-- The numeric enum value of each PSMessageType variant, as in ps_message.py. -/
def tagCode : PSMessageType → ℕ
  | .Heartbeat => 0
  | .HeartbeatOK => 1
  | .HeartbeatError => 2
  | .Init => 3
  | .InitOK => 4
  | .InitError => 5
  | .NewDataFromServer => 6
  | .NewResultFromNode => 7
  | .NodeNeedsMoreData => 8
  | .ResultOK => 9
  | .ConnectionError => 10
  | .Quit => 11

/-- Inverse of tagCode; codes outside 0..11 denote no message type. -/
def tagOfCode : ℕ → Option PSMessageType
  | 0 => some .Heartbeat
  | 1 => some .HeartbeatOK
  | 2 => some .HeartbeatError
  | 3 => some .Init
  | 4 => some .InitOK
  | 5 => some .InitError
  | 6 => some .NewDataFromServer
  | 7 => some .NewResultFromNode
  | 8 => some .NodeNeedsMoreData
  | 9 => some .ResultOK
  | 10 => some .ConnectionError
  | 11 => some .Quit
  | _ => Option.none

/-- The domain of Python values carried by parasnake messages: message-type
tags, node ids (128-bit UUID bit patterns), integers, floats (IEEE-754 bit
patterns, which pickle preserves exactly), strings (code-point lists), bools,
byte strings, None, tuples and lists (as cons chains). -/
inductive PSValue where
  | tag (t : PSMessageType)
  | nodeId (id : ℕ)
  | int (i : ℤ)
  | float (bits : ℕ)
  | str (s : List ℕ)
  | bool (b : Bool)
  | bytes (bs : List ℕ)
  | pyNone
  | tuple2 (a b : PSValue)
  | tuple3 (a b c : PSValue)
  | pyNil
  | pyCons (hd tl : PSValue)
  deriving DecidableEq, Repr

/-- Self-delimiting encoding of a natural number: little-endian base-255
digits followed by the terminator byte 255. -/
def natEnc (n : ℕ) : List ℕ :=
  if h : n = 0 then [255]
  else (n % 255) :: natEnc (n / 255)
termination_by n
decreasing_by exact Nat.div_lt_self (Nat.pos_of_ne_zero h) (by norm_num)

/-- Decoder for natEnc, returning the value and the remaining input. -/
def natDecAux : List ℕ → Option (ℕ × List ℕ)
  | [] => Option.none
  | d :: rest =>
    if d = 255 then some (0, rest)
    else if d < 255 then
      match natDecAux rest with
      | some (m, r) => some (d + 255 * m, r)
      | Option.none => Option.none
    else Option.none

/-- Sign-tagged encoding of an integer. -/
def intEnc (i : ℤ) : List ℕ :=
  if 0 ≤ i then 0 :: natEnc i.toNat else 1 :: natEnc (-i).toNat

/-- Decoder for intEnc. -/
def intDec : List ℕ → Option (ℤ × List ℕ)
  | 0 :: rest => (natDecAux rest).map fun p => ((p.1 : ℤ), p.2)
  | 1 :: rest => (natDecAux rest).map fun p => (-(p.1 : ℤ), p.2)
  | _ => Option.none

/-- Concatenation of the encodings of a list of naturals. -/
def natListEnc (ns : List ℕ) : List ℕ := (ns.map natEnc).flatten

/-- Decoder reading a known count of encoded naturals. -/
def natListDec : ℕ → List ℕ → Option (List ℕ × List ℕ)
  | 0, rest => some ([], rest)
  | k+1, rest =>
    match natDecAux rest with
    | some (n, r) =>
      match natListDec k r with
      | some (ns, r2) => some (n :: ns, r2)
      | Option.none => Option.none
    | Option.none => Option.none

/-- Model of pickle.dumps on the supported value domain: a tag byte per
constructor followed by the payload, subvalues serialized in sequence. -/
def pickle_dumps : PSValue → List ℕ
  | .tag t => 0 :: natEnc (tagCode t)
  | .nodeId id => 1 :: natEnc id
  | .int i => 2 :: intEnc i
  | .float bits => 3 :: natEnc bits
  | .str s => 4 :: (natEnc s.length ++ natListEnc s)
  | .bool b => 5 :: [if b then 1 else 0]
  | .bytes bs => 6 :: (natEnc bs.length ++ natListEnc bs)
  | .pyNone => [7]
  | .tuple2 a b => 8 :: (pickle_dumps a ++ pickle_dumps b)
  | .tuple3 a b c => 9 :: (pickle_dumps a ++ (pickle_dumps b ++ pickle_dumps c))
  | .pyNil => [10]
  | .pyCons hd tl => 11 :: (pickle_dumps hd ++ pickle_dumps tl)

/-- Constructor nesting depth of a value, the fuel needed to parse it back. -/
def vdepth : PSValue → ℕ
  | .tuple2 a b => max (vdepth a) (vdepth b) + 1
  | .tuple3 a b c => max (vdepth a) (max (vdepth b) (vdepth c)) + 1
  | .pyCons hd tl => max (vdepth hd) (vdepth tl) + 1
  | _ => 1

/-- Fuelled parser inverting pickle_dumps; fails on any malformed input. -/
def loadsFuel : ℕ → List ℕ → Option (PSValue × List ℕ)
  | 0, _ => Option.none
  | _+1, [] => Option.none
  | f+1, b :: bs =>
    match b with
    | 0 =>
      match natDecAux bs with
      | some (n, r) =>
        match tagOfCode n with
        | some t => some (.tag t, r)
        | Option.none => Option.none
      | Option.none => Option.none
    | 1 =>
      match natDecAux bs with
      | some (n, r) => some (.nodeId n, r)
      | Option.none => Option.none
    | 2 =>
      match intDec bs with
      | some (i, r) => some (.int i, r)
      | Option.none => Option.none
    | 3 =>
      match natDecAux bs with
      | some (n, r) => some (.float n, r)
      | Option.none => Option.none
    | 4 =>
      match natDecAux bs with
      | some (len, r) =>
        match natListDec len r with
        | some (s, r2) => some (.str s, r2)
        | Option.none => Option.none
      | Option.none => Option.none
    | 5 =>
      match bs with
      | 0 :: r => some (.bool false, r)
      | 1 :: r => some (.bool true, r)
      | _ => Option.none
    | 6 =>
      match natDecAux bs with
      | some (len, r) =>
        match natListDec len r with
        | some (l, r2) => some (.bytes l, r2)
        | Option.none => Option.none
      | Option.none => Option.none
    | 7 => some (.pyNone, bs)
    | 8 =>
      match loadsFuel f bs with
      | some (a, r) =>
        match loadsFuel f r with
        | some (b2, r2) => some (.tuple2 a b2, r2)
        | Option.none => Option.none
      | Option.none => Option.none
    | 9 =>
      match loadsFuel f bs with
      | some (a, r) =>
        match loadsFuel f r with
        | some (b2, r2) =>
          match loadsFuel f r2 with
          | some (c, r3) => some (.tuple3 a b2 c, r3)
          | Option.none => Option.none
        | Option.none => Option.none
      | Option.none => Option.none
    | 10 => some (.pyNil, bs)
    | 11 =>
      match loadsFuel f bs with
      | some (hd, r) =>
        match loadsFuel f r with
        | some (tl, r2) => some (.pyCons hd tl, r2)
        | Option.none => Option.none
      | Option.none => Option.none
    | _ => Option.none

/-- Model of pickle.loads: parse a full value consuming the whole input. -/
def pickle_loads (bs : List ℕ) : Option PSValue :=
  match loadsFuel bs.length bs with
  | some (v, []) => some v
  | _ => Option.none

/-- Model of lzma.compress: magic header byte followed by the payload.  The
contract used by the code is only that compression is lossless and that
decompressing non-lzma data raises LZMAError. -/
def lzma_compress (bs : List ℕ) : List ℕ := 253 :: bs

/-- Model of lzma.decompress: accepts exactly the outputs of lzma_compress. -/
def lzma_decompress : List ℕ → Option (List ℕ)
  | 253 :: rest => some rest
  | _ => Option.none

/-- Integrity tag of the Fernet model, a function of key and payload. -/
def fernet_mac (key data : List ℕ) : ℕ := (key.sum + 3 * data.sum + 7 * data.length) % 256

/-- Model of Fernet(key).encrypt: version byte 128, integrity tag, payload.
Deterministic: the random nonce is omitted, which is sound for the verified
properties since encode/decode are symmetric modulo the nonce. -/
def fernet_encrypt (key pt : List ℕ) : List ℕ := 128 :: fernet_mac key pt :: pt

/-- Model of Fernet(key).decrypt: checks version and integrity tag, failing
(InvalidToken) on any token not produced under the same key. -/
def fernet_decrypt (key : List ℕ) : List ℕ → Option (List ℕ)
  | 128 :: m :: pt => if m = fernet_mac key pt then some pt else Option.none
  | _ => Option.none

/-- The distinct exceptions the three decode stages raise in the code:
cryptography.fernet.InvalidToken, lzma.LZMAError, pickle.UnpicklingError. -/
inductive PSDecodeError where
  | invalidToken
  | lzmaError
  | unpicklingError
  deriving DecidableEq, Repr

/-- encode_message from ps_message.py: serialize, compress, encrypt. -/
def encode_message (message : PSValue) (secret_key : List ℕ) : List ℕ :=
  let msg_ser := pickle_dumps message
  let msg_cmp := lzma_compress msg_ser
  let msg_enc := fernet_encrypt secret_key msg_cmp
  msg_enc

/-- decode_message from ps_message.py: decrypt, decompress, deserialize.  Each
stage raises its own library exception, modelled as the three PSDecodeError
kinds; nothing in the code catches or unifies them. -/
def decode_message (message : List ℕ) (secret_key : List ℕ) : Except PSDecodeError PSValue :=
  match fernet_decrypt secret_key message with
  | Option.none => .error .invalidToken
  | some msg_cmp =>
    match lzma_decompress msg_cmp with
    | Option.none => .error .lzmaError
    | some msg_ser =>
      match pickle_loads msg_ser with
      | Option.none => .error .unpicklingError
      | some obj => .ok obj

/-- Coordinator state from PSServer.__init__: the workers mapping all_nodes
(a Python dict, modelled as an insertion-ordered association list from node id
to last-seen timestamp), the quit flag and the quit counter.  The static
fields secret_key and heartbeat_timeout are passed as parameters where used. -/
structure PSServerState where
  all_nodes : List (PSValue × ℚ)
  quit : Bool
  quit_counter : ℤ
  deriving DecidableEq, Repr

/-- Python dict membership test (node_id in self.all_nodes). -/
def dictContains (d : List (PSValue × ℚ)) (k : PSValue) : Bool :=
  d.any (fun p => decide (p.1 = k))

/-- Python dict assignment (self.all_nodes[k] = v): update in place if the
key is present, otherwise append in insertion order. -/
def dictSet (d : List (PSValue × ℚ)) (k : PSValue) (v : ℚ) : List (PSValue × ℚ) :=
  match d with
  | [] => [(k, v)]
  | (k2, v2) :: rest => if k2 = k then (k, v) :: rest else (k2, v2) :: dictSet rest k v

/-- Number of entries of a dict with the given key. -/
def dictCount (d : List (PSValue × ℚ)) (k : PSValue) : ℕ :=
  d.countP (fun p => decide (p.1 = k))

/-- ps_register_new_node from ps_server.py: store the current time under the
new node id. -/
def ps_register_new_node (s : PSServerState) (node_id : PSValue) (now : ℚ) : PSServerState :=
  { s with all_nodes := dictSet s.all_nodes node_id now }

/-- ps_update_node_time from ps_server.py: refresh the last-seen time. -/
def ps_update_node_time (s : PSServerState) (node_id : PSValue) (now : ℚ) : PSServerState :=
  { s with all_nodes := dictSet s.all_nodes node_id now }

/-- The user callbacks of PSServer, recorded rather than executed. -/
inductive PSCallback where
  | get_init_data (id : PSValue)
  | get_new_data (id : PSValue)
  | process_result (id r : PSValue)
  | node_timeout (id : PSValue)
  | is_job_done
  deriving DecidableEq, Repr

/-- Result of handling one decoded inbound frame: the successor state, the
reply written back (none when the message matches no case and the connection
is closed without a response), and the user callbacks invoked, in order. -/
structure HandleResult where
  state : PSServerState
  reply : Option PSValue
  calls : List PSCallback
  deriving DecidableEq, Repr

/-- Element view of a pyCons chain: the elements of a Python list when the
chain is nil-terminated; an improper chain denotes no Python value and has
no view. -/
def listView : PSValue → Option (List PSValue)
  | .pyNil => some []
  | .pyCons hd tl => (listView tl).map (hd :: ·)
  | _ => Option.none

/-- Element view of the Python values matched by a PEP 634 sequence pattern
such as case (Tag, node_id): tuples and lists match with their elements (str,
bytes and non-sequence values do not), so the server's case patterns accept
list-shaped frames as well as tuple-shaped ones. -/
def seqView : PSValue → Option (List PSValue)
  | .tuple2 a b => some [a, b]
  | .tuple3 a b c => some [a, b, c]
  | .pyNil => some []
  | .pyCons hd tl => (listView tl).map (hd :: ·)
  | _ => Option.none

/-- ps_handle_node from ps_server.py, after decoding: if quitting reply Quit;
otherwise dispatch on the message shape.  The source's case (Tag, node_id)
patterns are PEP 634 sequence patterns, so each arm matches any two-element
(three-element for NewResultFromNode) sequence — tuple or list — whose first
element is the given tag; this is expressed by matching on seqView.
getInitData and getNewData are the user implementations of ps_get_init_data
and ps_get_new_data (reached through their thread/lock wrappers); replies
carry the value the corresponding ps_gen_* function would encode. -/
def ps_handle_node (getInitData getNewData : PSValue → PSValue)
    (s : PSServerState) (msg : PSValue) (now : ℚ) : HandleResult :=
  if s.quit then
    ⟨s, some (.tag .Quit), []⟩
  else
    match seqView msg with
    | some [.tag .Init, node_id] =>
      if dictContains s.all_nodes node_id then
        ⟨s, some (.tag .InitError), []⟩
      else
        ⟨ps_register_new_node s node_id now,
         some (.tuple2 (.tag .InitOK) (getInitData node_id)),
         [.get_init_data node_id]⟩
    | some [.tag .Heartbeat, node_id] =>
      if dictContains s.all_nodes node_id then
        ⟨ps_update_node_time s node_id now, some (.tag .HeartbeatOK), []⟩
      else
        ⟨s, some (.tag .HeartbeatError), []⟩
    | some [.tag .NodeNeedsMoreData, node_id] =>
      if dictContains s.all_nodes node_id then
        ⟨ps_update_node_time s node_id now,
         some (.tuple2 (.tag .NewDataFromServer) (getNewData node_id)),
         [.get_new_data node_id]⟩
      else
        ⟨s, some (.tag .InitError), []⟩
    | some [.tag .NewResultFromNode, node_id, result] =>
      if dictContains s.all_nodes node_id then
        ⟨ps_update_node_time s node_id now, some (.tag .ResultOK),
         [.process_result node_id result]⟩
      else
        ⟨s, some (.tag .InitError), []⟩
    | _ => ⟨s, Option.none, []⟩

/-- Python int() applied to a rational: truncation toward zero. -/
def pyInt (q : ℚ) : ℤ := Int.tdiv q.num (q.den : ℤ)

/-- ps_check_heartbeat from ps_server.py: for every registered node whose
last-seen time v satisfies int(now - v + 1.0) > heartbeat_timeout, invoke the
user callback ps_node_timeout; the registry itself is not modified. -/
def ps_check_heartbeat (heartbeat_timeout : ℤ) (now : ℚ) (s : PSServerState) :
    List PSCallback :=
  (s.all_nodes.filter (fun p => decide (heartbeat_timeout < pyInt (now - p.2 + 1)))).map
    (fun p => .node_timeout p.1)

/-- Result of one iteration of the ps_main_loop while-loop body after the
10-second sleep: successor state, callbacks invoked, and whether the loop
continues (false exactly when quit_counter reaches zero and the loop breaks). -/
structure SweepResult where
  state : PSServerState
  calls : List PSCallback
  looping : Bool
  deriving DecidableEq, Repr

/-- One sweep tick of ps_main_loop from ps_server.py.  jobDone is the value
returned by the user callback ps_is_job_done when it is consulted; when
quitting it is not consulted. -/
def ps_sweep (heartbeat_timeout : ℤ) (jobDone : Bool) (now : ℚ) (s : PSServerState) :
    SweepResult :=
  if s.quit then
    ⟨{ s with quit_counter := s.quit_counter - 1 }, [],
     if s.quit_counter - 1 = 0 then false else true⟩
  else
    if jobDone then
      ⟨{ s with quit := true }, [.is_job_done], true⟩
    else
      ⟨s, .is_job_done :: ps_check_heartbeat heartbeat_timeout now s, true⟩

/-- An observable event in the coordinator lifetime: an inbound decoded frame
handled by ps_handle_node, or a sweep tick of ps_main_loop. -/
inductive PSEvent where
  | conn (msg : PSValue) (now : ℚ)
  | tick (jobDone : Bool) (now : ℚ)

/-- One step of the coordinator: the successor state and the reply sent, if
any (sweep ticks send none). -/
def ps_step (getInitData getNewData : PSValue → PSValue) (heartbeat_timeout : ℤ)
    (s : PSServerState) : PSEvent → PSServerState × Option PSValue
  | .conn msg now =>
    let r := ps_handle_node getInitData getNewData s msg now
    (r.state, r.reply)
  | .tick jobDone now => ((ps_sweep heartbeat_timeout jobDone now s).state, Option.none)

/-- Run the coordinator through a sequence of events. -/
def ps_run_trace (getInitData getNewData : PSValue → PSValue) (heartbeat_timeout : ℤ)
    (s : PSServerState) : List PSEvent → PSServerState
  | [] => s
  | e :: es =>
    ps_run_trace getInitData getNewData heartbeat_timeout
      (ps_step getInitData getNewData heartbeat_timeout s e).1 es

/-- All replies sent while running through a sequence of events, in order. -/
def ps_trace_replies (getInitData getNewData : PSValue → PSValue) (heartbeat_timeout : ℤ)
    (s : PSServerState) : List PSEvent → List PSValue
  | [] => []
  | e :: es =>
    let r := ps_step getInitData getNewData heartbeat_timeout s e
    r.2.toList ++ ps_trace_replies getInitData getNewData heartbeat_timeout r.1 es

/-- Shape filter for the four node-to-server case patterns ps_handle_node
dispatches on, with PEP 634 sequence-pattern semantics: any two-element
sequence (tuple or list) headed by the Init, Heartbeat or NodeNeedsMoreData
tag, or three-element sequence headed by the NewResultFromNode tag; every
other decoded value falls through the match. -/
def node_to_server_shape (m : PSValue) : Bool :=
  match seqView m with
  | some [.tag .Init, _] => true
  | some [.tag .Heartbeat, _] => true
  | some [.tag .NodeNeedsMoreData, _] => true
  | some [.tag .NewResultFromNode, _, _] => true
  | _ => false

/-- Outcome classes of the single request/reply TCP exchange attempted by
ps_send_msg_return_answer in ps_node.py: a reply arrives, the connection is
refused, or some other I/O exception (identified by a code) is raised during
connect, write or read. -/
inductive PSTransport where
  | ok (reply : PSValue)
  | connection_refused
  | io_failure (e : ℕ)
  deriving DecidableEq, Repr

/-- ps_send_msg_return_answer from ps_node.py.  The try/except catches only
ConnectionRefusedError, returning the synthetic ConnectionError message; any
other exception raised during the exchange propagates out of the coroutine,
modelled as Except.error carrying the exception. -/
def ps_send_msg_return_answer : PSTransport → Except ℕ PSValue
  | .ok reply => Except.ok reply
  | .connection_refused => Except.ok (.tag .ConnectionError)
  | .io_failure e => Except.error e

/-- The worker main-loop mode variable of ps_main_loop in ps_node.py. -/
inductive WorkerMode where
  | init
  | need_data
  | has_data
  deriving DecidableEq, Repr

/-- The message dispatch of one iteration of the worker main loop
(ps_main_loop in ps_node.py): given the current mode and the decoded reply,
return the next mode, or Option.none when the loop breaks and the worker main
task terminates. -/
def ps_node_step (mode : WorkerMode) (msg : PSValue) : Option WorkerMode :=
  match msg with
  | .tuple2 (.tag .InitOK) _ => if mode = .init then some .need_data else Option.none
  | .tag .InitError => Option.none
  | .tuple2 (.tag .NewDataFromServer) d =>
    if mode = .need_data then
      some (if d = .pyNone then .need_data else .has_data)
    else Option.none
  | .tag .ResultOK => if mode = .has_data then some .need_data else Option.none
  | .tag .Quit => Option.none
  | .tag .ConnectionError => Option.none
  | _ => Option.none

/-- Lock-level actions performed by the coordinator code paths that reach
user callbacks: acquiring self.lock, releasing it, and invoking a callback. -/
inductive PSLockAction where
  | acquire
  | release
  | invoke (c : PSCallback)
  deriving DecidableEq, Repr

/-- ps_get_init_data_lock from ps_server.py: with self.lock, call the user
callback ps_get_init_data. -/
def ps_get_init_data_lock (id : PSValue) : List PSLockAction :=
  [.acquire, .invoke (.get_init_data id), .release]

/-- ps_get_new_data_lock from ps_server.py: with self.lock, call the user
callback ps_get_new_data. -/
def ps_get_new_data_lock (id : PSValue) : List PSLockAction :=
  [.acquire, .invoke (.get_new_data id), .release]

/-- ps_process_result_lock from ps_server.py: with self.lock, call the user
callback ps_process_result. -/
def ps_process_result_lock (id r : PSValue) : List PSLockAction :=
  [.acquire, .invoke (.process_result id r), .release]

/-- Lock-level actions of one sweep tick of ps_main_loop: the callbacks it
invokes (ps_is_job_done directly, and ps_node_timeout via ps_check_heartbeat),
none of which is preceded by an acquisition of self.lock in the source. -/
def ps_sweep_actions (heartbeat_timeout : ℤ) (jobDone : Bool) (now : ℚ)
    (s : PSServerState) : List PSLockAction :=
  (ps_sweep heartbeat_timeout jobDone now s).calls.map .invoke

/-- Check that every callback invocation in an action list happens while the
lock depth is positive, starting from the given depth. -/
def invokesLocked : ℤ → List PSLockAction → Bool
  | _, [] => true
  | d, .acquire :: rest => invokesLocked (d + 1) rest
  | d, .release :: rest => invokesLocked (d - 1) rest
  | d, .invoke _ :: rest => decide (0 < d) && invokesLocked d rest

/-- Value of the base64 url-safe alphabet at an index (RFC 4648 §5): A-Z,
a-z, 0-9, minus, underscore, as byte values. -/
def b64Char (n : ℕ) : ℕ :=
  if n < 26 then 65 + n
  else if n < 52 then 97 + (n - 26)
  else if n < 62 then 48 + (n - 52)
  else if n = 62 then 45
  else 95

/-- base64.urlsafe_b64encode on byte lists: groups of three bytes become four
alphabet bytes; final groups of one or two bytes are padded with 61 (=). -/
def urlsafe_b64encode : List ℕ → List ℕ
  | [] => []
  | [a] =>
    let x := (a % 256) * 65536
    [b64Char (x / 262144 % 64), b64Char (x / 4096 % 64), 61, 61]
  | [a, b] =>
    let x := (a % 256) * 65536 + (b % 256) * 256
    [b64Char (x / 262144 % 64), b64Char (x / 4096 % 64), b64Char (x / 64 % 64), 61]
  | a :: b :: c :: rest =>
    let x := (a % 256) * 65536 + (b % 256) * 256 + (c % 256)
    b64Char (x / 262144 % 64) :: b64Char (x / 4096 % 64) :: b64Char (x / 64 % 64) ::
      b64Char (x % 64) :: urlsafe_b64encode rest

/-- The configuration object from ps_config.py; secret_key holds the already
base64-encoded key bytes, as in the source. -/
structure PSConfiguration where
  server_address : String
  server_port : ℤ
  heartbeat_timeout : ℤ
  secret_key : List ℕ
  quit_counter : ℤ
  deriving DecidableEq, Repr

/-- PSConfiguration.__init__ from ps_config.py: defaults 127.0.0.1, 3100,
60*5 and 10; asserts that the key string has length exactly 32 (a failing
Python assert is modelled as Except.error) and stores the url-safe base64
encoding of the key. -/
def PSConfiguration.init (secret_key : List ℕ) : Except String PSConfiguration :=
  if secret_key.length = 32 then
    Except.ok ⟨"127.0.0.1", 3100, 60 * 5, urlsafe_b64encode secret_key, 10⟩
  else
    Except.error "Key must be exactly 32 bytes long"

/-- The JSON data read by PSConfiguration.from_json: the required secret_key
string (as its code points) and the four optional keys. -/
structure JsonConfigData where
  secret_key : List ℕ
  server_address : Option String
  server_port : Option ℤ
  heartbeat_timeout : Option ℤ
  quit_counter : Option ℤ
  deriving DecidableEq, Repr

/-- PSConfiguration.from_json from ps_config.py: construct from the key, then
override each optional field that is present; heartbeat_timeout must be
greater than 9 and quit_counter greater than 0 when present (failing asserts
modelled as Except.error). -/
def PSConfiguration.from_json (d : JsonConfigData) : Except String PSConfiguration :=
  match PSConfiguration.init d.secret_key with
  | Except.error e => Except.error e
  | Except.ok c0 =>
    let c1 := match d.server_address with
      | some a => { c0 with server_address := a }
      | Option.none => c0
    let c2 := match d.server_port with
      | some p => { c1 with server_port := p }
      | Option.none => c1
    match d.heartbeat_timeout with
    | some h =>
      if h > 9 then
        let c3 := { c2 with heartbeat_timeout := h }
        match d.quit_counter with
        | some q =>
          if q > 0 then Except.ok { c3 with quit_counter := q }
          else Except.error "Quit counter must be greater than 0"
        | Option.none => Except.ok c3
      else
        Except.error "Heartbeat timeout must be greater then 9 seconds"
    | Option.none =>
      match d.quit_counter with
      | some q =>
        if q > 0 then Except.ok { c2 with quit_counter := q }
        else Except.error "Quit counter must be greater than 0"
      | Option.none => Except.ok c2

theorem natDecAux_enc (n : ℕ) : ∀ rest : List ℕ, natDecAux (natEnc n ++ rest) = some (n, rest) := by
  induction n using Nat.strong_induction_on with
  | _ n ih =>
    intro rest
    rw [natEnc]
    by_cases h : n = 0
    · simp [h, natDecAux]
    · have hlt : n % 255 < 255 := Nat.mod_lt _ (by norm_num)
      have hdiv : n / 255 < n := Nat.div_lt_self (Nat.pos_of_ne_zero h) (by norm_num)
      simp [h, natDecAux, Nat.ne_of_lt hlt, hlt, ih _ hdiv, Nat.mod_add_div]

theorem intDec_enc (i : ℤ) (rest : List ℕ) : intDec (intEnc i ++ rest) = some (i, rest) := by
  by_cases h : 0 ≤ i
  · simp [intEnc, h, intDec, natDecAux_enc, Int.toNat_of_nonneg h]
  · have h2 : 0 ≤ -i := by omega
    simp [intEnc, h, intDec, natDecAux_enc, Int.toNat_of_nonneg h2]

theorem natListDec_enc (ns : List ℕ) : ∀ rest : List ℕ,
    natListDec ns.length (natListEnc ns ++ rest) = some (ns, rest) := by
  induction ns with
  | nil => intro rest; simp [natListEnc, natListDec]
  | cons n ns ih =>
    intro rest
    have h := ih rest
    simp only [natListEnc] at h
    simp [natListEnc, natListDec, List.append_assoc, natDecAux_enc, h]

theorem tagOfCode_tagCode (t : PSMessageType) : tagOfCode (tagCode t) = some t := by
  cases t <;> rfl

theorem loadsFuel_dumps : ∀ (v : PSValue) (f : ℕ) (rest : List ℕ), vdepth v ≤ f →
    loadsFuel f (pickle_dumps v ++ rest) = some (v, rest) := by
  intro v
  induction v with
  | tag t =>
    intro f rest hf
    obtain ⟨f0, rfl⟩ : ∃ f0, f = f0 + 1 := ⟨f - 1, by simp [vdepth] at hf; omega⟩
    simp [pickle_dumps, loadsFuel, natDecAux_enc, tagOfCode_tagCode]
  | nodeId id =>
    intro f rest hf
    obtain ⟨f0, rfl⟩ : ∃ f0, f = f0 + 1 := ⟨f - 1, by simp [vdepth] at hf; omega⟩
    simp [pickle_dumps, loadsFuel, natDecAux_enc]
  | int i =>
    intro f rest hf
    obtain ⟨f0, rfl⟩ : ∃ f0, f = f0 + 1 := ⟨f - 1, by simp [vdepth] at hf; omega⟩
    simp [pickle_dumps, loadsFuel, intDec_enc]
  | float bits =>
    intro f rest hf
    obtain ⟨f0, rfl⟩ : ∃ f0, f = f0 + 1 := ⟨f - 1, by simp [vdepth] at hf; omega⟩
    simp [pickle_dumps, loadsFuel, natDecAux_enc]
  | str s =>
    intro f rest hf
    obtain ⟨f0, rfl⟩ : ∃ f0, f = f0 + 1 := ⟨f - 1, by simp [vdepth] at hf; omega⟩
    simp [pickle_dumps, loadsFuel, List.append_assoc, natDecAux_enc, natListDec_enc]
  | bool b =>
    intro f rest hf
    obtain ⟨f0, rfl⟩ : ∃ f0, f = f0 + 1 := ⟨f - 1, by simp [vdepth] at hf; omega⟩
    cases b <;> simp [pickle_dumps, loadsFuel]
  | bytes bs =>
    intro f rest hf
    obtain ⟨f0, rfl⟩ : ∃ f0, f = f0 + 1 := ⟨f - 1, by simp [vdepth] at hf; omega⟩
    simp [pickle_dumps, loadsFuel, List.append_assoc, natDecAux_enc, natListDec_enc]
  | pyNone =>
    intro f rest hf
    obtain ⟨f0, rfl⟩ : ∃ f0, f = f0 + 1 := ⟨f - 1, by simp [vdepth] at hf; omega⟩
    simp [pickle_dumps, loadsFuel]
  | tuple2 a b iha ihb =>
    intro f rest hf
    simp only [vdepth] at hf
    obtain ⟨f0, rfl⟩ : ∃ f0, f = f0 + 1 := ⟨f - 1, by omega⟩
    have ha : vdepth a ≤ f0 := by omega
    have hb : vdepth b ≤ f0 := by omega
    simp [pickle_dumps, loadsFuel, List.append_assoc, iha f0 _ ha, ihb f0 rest hb]
  | tuple3 a b c iha ihb ihc =>
    intro f rest hf
    simp only [vdepth] at hf
    obtain ⟨f0, rfl⟩ : ∃ f0, f = f0 + 1 := ⟨f - 1, by omega⟩
    have ha : vdepth a ≤ f0 := by omega
    have hb : vdepth b ≤ f0 := by omega
    have hc : vdepth c ≤ f0 := by omega
    simp [pickle_dumps, loadsFuel, List.append_assoc, iha f0 _ ha, ihb f0 _ hb, ihc f0 rest hc]
  | pyNil =>
    intro f rest hf
    obtain ⟨f0, rfl⟩ : ∃ f0, f = f0 + 1 := ⟨f - 1, by simp [vdepth] at hf; omega⟩
    simp [pickle_dumps, loadsFuel]
  | pyCons hd tl ihhd ihtl =>
    intro f rest hf
    simp only [vdepth] at hf
    obtain ⟨f0, rfl⟩ : ∃ f0, f = f0 + 1 := ⟨f - 1, by omega⟩
    have ha : vdepth hd ≤ f0 := by omega
    have hb : vdepth tl ≤ f0 := by omega
    simp [pickle_dumps, loadsFuel, List.append_assoc, ihhd f0 _ ha, ihtl f0 rest hb]

theorem vdepth_le_length (v : PSValue) : vdepth v ≤ (pickle_dumps v).length := by
  induction v with
  | tuple2 a b iha ihb => simp [pickle_dumps, vdepth]; omega
  | tuple3 a b c iha ihb ihc => simp [pickle_dumps, vdepth]; omega
  | pyCons hd tl ihhd ihtl => simp [pickle_dumps, vdepth]; omega
  | _ => simp [pickle_dumps, vdepth]

theorem pickle_loads_dumps (v : PSValue) : pickle_loads (pickle_dumps v) = some v := by
  have h := loadsFuel_dumps v (pickle_dumps v).length [] (vdepth_le_length v)
  rw [List.append_nil] at h
  simp [pickle_loads, h]

/-- C1: for every value v in the supported message domain and every key k,
decode_message (encode_message v k) k returns v; in particular each of the 11
wire variants round-trips to the original tagged value. -/
theorem decode_message_encode_message (v : PSValue) (k : List ℕ) :
    decode_message (encode_message v k) k = Except.ok v := by
  simp [encode_message, decode_message, fernet_encrypt, fernet_decrypt,
    lzma_compress, lzma_decompress, pickle_loads_dumps]

/-- C6 (counterexample): the three decode stages fail with three pairwise
distinct error kinds at concrete inputs — an unauthenticated token raises
InvalidToken, a validly encrypted non-lzma payload raises LZMAError, and a
validly encrypted, decompressible but unpicklable payload raises
UnpicklingError — so a caller of decode_message can distinguish the stages. -/
theorem decode_message_errors_distinguishable :
    decode_message [] [] = Except.error PSDecodeError.invalidToken ∧
    decode_message (fernet_encrypt [] [9]) [] = Except.error PSDecodeError.lzmaError ∧
    decode_message (fernet_encrypt [] [253, 254]) [] =
      Except.error PSDecodeError.unpicklingError ∧
    PSDecodeError.invalidToken ≠ PSDecodeError.lzmaError ∧
    PSDecodeError.lzmaError ≠ PSDecodeError.unpicklingError ∧
    PSDecodeError.invalidToken ≠ PSDecodeError.unpicklingError :=
  ⟨rfl, rfl, rfl, by decide, by decide, by decide⟩

/-- C6 (amended): every failing decode_message input is reported with the
error kind of the stage that failed — InvalidToken when decryption fails,
LZMAError when decompression fails, UnpicklingError when deserialization
fails — so the caller can tell which of the three stages failed. -/
theorem decode_message_error_stages (m k : List ℕ) :
    (decode_message m k = Except.error PSDecodeError.invalidToken ↔
      fernet_decrypt k m = Option.none) ∧
    (decode_message m k = Except.error PSDecodeError.lzmaError ↔
      ∃ pt, fernet_decrypt k m = some pt ∧ lzma_decompress pt = Option.none) ∧
    (decode_message m k = Except.error PSDecodeError.unpicklingError ↔
      ∃ pt ser, fernet_decrypt k m = some pt ∧ lzma_decompress pt = some ser ∧
        pickle_loads ser = Option.none) := by
  cases h1 : fernet_decrypt k m with
  | none => simp [decode_message, h1]
  | some pt =>
    cases h2 : lzma_decompress pt with
    | none => simp [decode_message, h1, h2]
    | some ser =>
      cases h3 : pickle_loads ser with
      | none => simp [decode_message, h1, h2, h3]
      | some v => simp [decode_message, h1, h2, h3]

theorem dictSet_of_not_contains (d : List (PSValue × ℚ)) (k : PSValue) (v : ℚ)
    (h : dictContains d k = false) : dictSet d k v = d ++ [(k, v)] := by
  induction d with
  | nil => simp [dictSet]
  | cons p rest ih =>
    simp only [dictContains, List.any_cons, Bool.or_eq_false_iff,
      decide_eq_false_iff_not] at h
    simp [dictSet, h.1, ih (by simpa [dictContains] using h.2)]

theorem dictContains_append_self (d : List (PSValue × ℚ)) (k : PSValue) (v : ℚ) :
    dictContains (d ++ [(k, v)]) k = true := by
  simp [dictContains]

theorem dictCount_of_not_contains (d : List (PSValue × ℚ)) (k : PSValue)
    (h : dictContains d k = false) : dictCount d k = 0 := by
  induction d with
  | nil => simp [dictCount]
  | cons p rest ih =>
    simp only [dictContains, List.any_cons, Bool.or_eq_false_iff,
      decide_eq_false_iff_not] at h
    have hr := ih (by simpa [dictContains] using h.2)
    simp only [dictCount, List.countP_cons, decide_eq_true_eq] at hr ⊢
    simp [h.1, hr]

theorem dictCount_append (d : List (PSValue × ℚ)) (k : PSValue) (v : ℚ) :
    dictCount (d ++ [(k, v)]) k = dictCount d k + 1 := by
  simp [dictCount, List.countP_append]

/-- C2: in a non-quitting coordinator, Init with an already registered id
replies InitError and changes nothing; Init with a fresh id registers the id
at the current time, invokes the user callback get_init_data, and replies
InitOK with its result; hence two successive Init frames with the same fresh
id yield InitOK then InitError and leave exactly one entry for that id. -/
theorem ps_init_registration (gI gN : PSValue → PSValue) (s : PSServerState)
    (id : PSValue) (now now2 : ℚ) (hq : s.quit = false) :
    (dictContains s.all_nodes id = true →
      ps_handle_node gI gN s (.tuple2 (.tag .Init) id) now =
        ⟨s, some (.tag .InitError), []⟩) ∧
    (dictContains s.all_nodes id = false →
      ps_handle_node gI gN s (.tuple2 (.tag .Init) id) now =
        ⟨⟨s.all_nodes ++ [(id, now)], false, s.quit_counter⟩,
         some (.tuple2 (.tag .InitOK) (gI id)), [.get_init_data id]⟩) ∧
    (dictContains s.all_nodes id = false →
      (ps_handle_node gI gN s (.tuple2 (.tag .Init) id) now).reply =
        some (.tuple2 (.tag .InitOK) (gI id)) ∧
      (ps_handle_node gI gN
          (ps_handle_node gI gN s (.tuple2 (.tag .Init) id) now).state
          (.tuple2 (.tag .Init) id) now2).reply = some (.tag .InitError) ∧
      (ps_handle_node gI gN
          (ps_handle_node gI gN s (.tuple2 (.tag .Init) id) now).state
          (.tuple2 (.tag .Init) id) now2).state =
        (ps_handle_node gI gN s (.tuple2 (.tag .Init) id) now).state ∧
      dictCount (ps_handle_node gI gN s (.tuple2 (.tag .Init) id) now).state.all_nodes id
        = 1) := by
  refine ⟨?_, ?_, ?_⟩
  · intro h
    simp [ps_handle_node, seqView, hq, h]
  · intro h
    have hset := dictSet_of_not_contains s.all_nodes id now h
    simp [ps_handle_node, seqView, hq, h, ps_register_new_node, hset]
  · intro h
    have hset := dictSet_of_not_contains s.all_nodes id now h
    have h1 : ps_handle_node gI gN s (.tuple2 (.tag .Init) id) now =
        ⟨⟨s.all_nodes ++ [(id, now)], false, s.quit_counter⟩,
         some (.tuple2 (.tag .InitOK) (gI id)), [.get_init_data id]⟩ := by
      simp [ps_handle_node, seqView, hq, h, ps_register_new_node, hset]
    rw [h1]
    have h2 : dictContains (s.all_nodes ++ [(id, now)]) id = true :=
      dictContains_append_self s.all_nodes id now
    refine ⟨rfl, ?_, ?_, ?_⟩
    · simp [ps_handle_node, seqView, h2]
    · simp [ps_handle_node, seqView, h2]
    · simp [dictCount_append, dictCount_of_not_contains s.all_nodes id h]

/-- C2 witness at a concrete state: empty registry, node id 7, times 2 and 3. -/
theorem ps_init_registration_witness :
    (Parasnake.ps_handle_node (fun _ => .pyNone) (fun _ => .pyNone)
        ⟨[], false, 10⟩ (.tuple2 (.tag .Init) (.nodeId 7)) 2).reply =
      some (.tuple2 (.tag .InitOK) (.pyNone)) ∧
    (Parasnake.ps_handle_node (fun _ => .pyNone) (fun _ => .pyNone)
        (Parasnake.ps_handle_node (fun _ => .pyNone) (fun _ => .pyNone)
          ⟨[], false, 10⟩ (.tuple2 (.tag .Init) (.nodeId 7)) 2).state
        (.tuple2 (.tag .Init) (.nodeId 7)) 3).reply = some (.tag .InitError) ∧
    dictCount (Parasnake.ps_handle_node (fun _ => .pyNone) (fun _ => .pyNone)
        ⟨[], false, 10⟩ (.tuple2 (.tag .Init) (.nodeId 7)) 2).state.all_nodes
      (.nodeId 7) = 1 := by
  have h := (ps_init_registration (fun _ => .pyNone) (fun _ => .pyNone)
    ⟨[], false, 10⟩ (.nodeId 7) 2 3 rfl).2.2 (by decide)
  exact ⟨h.1, h.2.1, h.2.2.2⟩

/-- C4: in a non-quitting coordinator, a Heartbeat from an unregistered id is
answered HeartbeatError, and NodeNeedsMoreData or NewResultFromNode from an
unregistered id are answered InitError; in all three cases the workers
mapping is unchanged and no user callback is invoked. -/
theorem ps_unknown_id_errors (gI gN : PSValue → PSValue) (s : PSServerState)
    (id : PSValue) (now : ℚ) (hq : s.quit = false)
    (hid : dictContains s.all_nodes id = false) :
    ps_handle_node gI gN s (.tuple2 (.tag .Heartbeat) id) now =
      ⟨s, some (.tag .HeartbeatError), []⟩ ∧
    ps_handle_node gI gN s (.tuple2 (.tag .NodeNeedsMoreData) id) now =
      ⟨s, some (.tag .InitError), []⟩ ∧
    ∀ r : PSValue, ps_handle_node gI gN s (.tuple3 (.tag .NewResultFromNode) id r) now =
      ⟨s, some (.tag .InitError), []⟩ := by
  refine ⟨?_, ?_, fun r => ?_⟩ <;> simp [ps_handle_node, seqView, hq, hid]

/-- C4 witness at a concrete state: registry holding only id 3, requests from
the unregistered id 9. -/
theorem ps_unknown_id_errors_witness :
    Parasnake.ps_handle_node (fun _ => .pyNone) (fun _ => .pyNone)
      ⟨[(.nodeId 3, 1)], false, 10⟩ (.tuple2 (.tag .Heartbeat) (.nodeId 9)) 5 =
      ⟨⟨[(.nodeId 3, 1)], false, 10⟩, some (.tag .HeartbeatError), []⟩ ∧
    Parasnake.ps_handle_node (fun _ => .pyNone) (fun _ => .pyNone)
      ⟨[(.nodeId 3, 1)], false, 10⟩ (.tuple3 (.tag .NewResultFromNode) (.nodeId 9) (.int 4)) 5 =
      ⟨⟨[(.nodeId 3, 1)], false, 10⟩, some (.tag .InitError), []⟩ := by
  have h := ps_unknown_id_errors (fun _ => .pyNone) (fun _ => .pyNone)
    ⟨[(.nodeId 3, 1)], false, 10⟩ (.nodeId 9) 5 rfl (by decide)
  exact ⟨h.1, h.2.2 (.int 4)⟩

/-- C10: in a non-quitting coordinator, a decoded message matching none of
the four node-to-server patterns receives no reply, invokes no user callback,
and leaves the state (workers mapping and quit flag) unchanged. -/
theorem ps_handle_unmatched (gI gN : PSValue → PSValue) (s : PSServerState)
    (msg : PSValue) (now : ℚ) (hq : s.quit = false)
    (hm : node_to_server_shape msg = false) :
    ps_handle_node gI gN s msg now = ⟨s, Option.none, []⟩ := by
  unfold ps_handle_node
  simp only [hq, Bool.false_eq_true, if_false]
  unfold node_to_server_shape at hm
  cases hv : seqView msg with
  | none => rfl
  | some l =>
    rw [hv] at hm
    cases l with
    | nil => rfl
    | cons a t =>
      cases t with
      | nil =>
        cases a <;> try rfl
        case tag tt => cases tt <;> rfl
      | cons b t2 =>
        cases t2 with
        | nil =>
          cases a <;> try rfl
          case tag tt => cases tt <;> simp_all
        | cons c t3 =>
          cases t3 with
          | nil =>
            cases a <;> try rfl
            case tag tt => cases tt <;> simp_all
          | cons d t4 =>
            cases a <;> try rfl
            case tag tt => cases tt <;> rfl

/-- C10 witness: a bare Quit tag and a server-to-node InitOK variant are
dropped without a reply at a concrete non-quitting state. -/
theorem ps_handle_unmatched_witness :
    Parasnake.ps_handle_node (fun _ => .pyNone) (fun _ => .pyNone)
      ⟨[(.nodeId 3, 1)], false, 10⟩ (.tag .Quit) 5 =
      ⟨⟨[(.nodeId 3, 1)], false, 10⟩, Option.none, []⟩ ∧
    Parasnake.ps_handle_node (fun _ => .pyNone) (fun _ => .pyNone)
      ⟨[(.nodeId 3, 1)], false, 10⟩ (.tuple2 (.tag .InitOK) (.int 2)) 5 =
      ⟨⟨[(.nodeId 3, 1)], false, 10⟩, Option.none, []⟩ :=
  ⟨ps_handle_unmatched (fun _ => .pyNone) (fun _ => .pyNone)
      ⟨[(.nodeId 3, 1)], false, 10⟩ (.tag .Quit) 5 rfl (by decide),
   ps_handle_unmatched (fun _ => .pyNone) (fun _ => .pyNone)
      ⟨[(.nodeId 3, 1)], false, 10⟩ (.tuple2 (.tag .InitOK) (.int 2)) 5 rfl (by decide)⟩

theorem ps_handle_node_seq_semantics (gI gN : PSValue → PSValue) (s : PSServerState)
    (a b c : PSValue) (now : ℚ) :
    ps_handle_node gI gN s (.pyCons a (.pyCons b .pyNil)) now =
      ps_handle_node gI gN s (.tuple2 a b) now ∧
    ps_handle_node gI gN s (.pyCons a (.pyCons b (.pyCons c .pyNil))) now =
      ps_handle_node gI gN s (.tuple3 a b c) now :=
  ⟨rfl, rfl⟩

theorem ps_handle_node_quit_state (gI gN : PSValue → PSValue) (s : PSServerState)
    (msg : PSValue) (now : ℚ) :
    (ps_handle_node gI gN s msg now).state.quit = s.quit := by
  unfold ps_handle_node
  split
  · rfl
  · split <;> try rfl
    all_goals
      split <;> simp [ps_register_new_node, ps_update_node_time]

theorem ps_step_quit_mono (gI gN : PSValue → PSValue) (hb : ℤ) (s : PSServerState)
    (e : PSEvent) (hq : s.quit = true) : (ps_step gI gN hb s e).1.quit = true := by
  cases e with
  | conn msg now => simp [ps_step, ps_handle_node_quit_state, hq]
  | tick j now => simp [ps_step, ps_sweep, hq]

theorem ps_trace_quit (gI gN : PSValue → PSValue) (hb : ℤ) :
    ∀ (events : List PSEvent) (s : PSServerState), s.quit = true →
      (ps_run_trace gI gN hb s events).quit = true ∧
      ∀ r ∈ ps_trace_replies gI gN hb s events, r = .tag .Quit := by
  intro events
  induction events with
  | nil =>
    intro s hq
    simp [ps_run_trace, ps_trace_replies, hq]
  | cons e es ih =>
    intro s hq
    have hq2 := ps_step_quit_mono gI gN hb s e hq
    refine ⟨?_, ?_⟩
    · simpa [ps_run_trace] using (ih _ hq2).1
    · intro r hr
      simp only [ps_trace_replies] at hr
      rcases List.mem_append.mp hr with h | h
      · cases e with
        | conn msg now =>
          have hrep : (ps_step gI gN hb s (.conn msg now)).2 = some (.tag .Quit) := by
            simp [ps_step, ps_handle_node, hq]
          rw [hrep] at h
          simpa using h
        | tick j now =>
          have hrep : (ps_step gI gN hb s (.tick j now)).2 = Option.none := by
            simp [ps_step]
          rw [hrep] at h
          simp at h
      · exact (ih _ hq2).2 r h

/-- C3: once the quitting flag is true, every handled inbound request — of
any tag, registered or not — receives the single reply Quit, the flag stays
true through any further events, and all replies for the rest of the
lifetime are Quit (so NewData is never sent again); and from a non-quitting
state the flag becomes true only on a sweep tick on which the user callback
is_job_done returned true, and it never transitions back. -/
theorem ps_quit_monotonic (gI gN : PSValue → PSValue) (hb : ℤ) (s : PSServerState) :
    (s.quit = true →
      (∀ msg now, (ps_handle_node gI gN s msg now).reply = some (.tag .Quit)) ∧
      (∀ events, (ps_run_trace gI gN hb s events).quit = true ∧
        ∀ r ∈ ps_trace_replies gI gN hb s events, r = .tag .Quit)) ∧
    (∀ e, s.quit = false → (ps_step gI gN hb s e).1.quit = true →
      ∃ now, e = .tick true now) := by
  constructor
  · intro hq
    exact ⟨fun msg now => by simp [ps_handle_node, hq],
      fun events => ps_trace_quit gI gN hb events s hq⟩
  · intro e hq hflip
    cases e with
    | conn msg now =>
      exfalso
      simp only [ps_step] at hflip
      rw [ps_handle_node_quit_state, hq] at hflip
      exact absurd hflip (by simp)
    | tick j now =>
      cases j with
      | false =>
        exfalso
        simp [ps_step, ps_sweep, hq] at hflip
      | true => exact ⟨now, rfl⟩

/-- C3 witness: a quitting coordinator answers Quit to a concrete request,
all replies along a concrete further trace are Quit, and the flag flips from
false exactly on a concrete job-done sweep tick. -/
theorem ps_quit_monotonic_witness :
    (Parasnake.ps_handle_node (fun _ => .pyNone) (fun _ => .pyNone)
        ⟨[], true, 4⟩ (.tuple2 (.tag .NodeNeedsMoreData) (.nodeId 1)) 0).reply =
      some (.tag .Quit) ∧
    (∀ r ∈ Parasnake.ps_trace_replies (fun _ => .pyNone) (fun _ => .pyNone) 300
        ⟨[], true, 4⟩ [.conn (.tuple2 (.tag .Init) (.nodeId 2)) 1, .tick false 2],
      r = PSValue.tag .Quit) ∧
    (∃ now, (PSEvent.tick true 5) = PSEvent.tick true now) := by
  have h := ps_quit_monotonic (fun _ => .pyNone) (fun _ => .pyNone) 300 ⟨[], true, 4⟩
  have h2 := ps_quit_monotonic (fun _ => .pyNone) (fun _ => .pyNone) 300 ⟨[], false, 4⟩
  exact ⟨(h.1 rfl).1 _ 0, ((h.1 rfl).2 _).2, h2.2 (.tick true 5) rfl (by decide)⟩

/-- C5 (counterexample): at last-seen 0, sweep time 19/2 and
heartbeat_timeout 10, the predicate claimed by the spec holds
(19/2 − 0 + 1 = 21/2 > 10) yet ps_check_heartbeat invokes no timeout
callback, because the code truncates with int() before comparing:
int(21/2) = 10 is not greater than 10. -/
theorem ps_check_heartbeat_predicate_cex :
    ((19 : ℚ) / 2 - 0 + 1 > (10 : ℚ)) ∧
    Parasnake.ps_check_heartbeat 10 ((19 : ℚ) / 2) ⟨[(.nodeId 1, 0)], false, 10⟩ = [] ∧
    (Parasnake.ps_sweep 10 false ((19 : ℚ) / 2) ⟨[(.nodeId 1, 0)], false, 10⟩).calls =
      [.is_job_done] := by
  have hnp : Parasnake.pyInt ((19 : ℚ) / 2 + 1) ≤ 10 := by
    norm_num [pyInt]; decide
  refine ⟨by norm_num, ?_, ?_⟩
  · simp [ps_check_heartbeat, List.filter_cons, hnp]
  · simp [ps_sweep, ps_check_heartbeat, List.filter_cons, hnp]

/-- C5 (amended): the code's timeout predicate for a worker last seen at v,
swept at now, is int(now − v + 1) > heartbeat_timeout with int() truncating
toward zero; a sweep from a non-quitting state on which is_job_done returns
false invokes node_timeout for precisely the workers satisfying it, and for
no others. -/
theorem ps_sweep_timeout_exact (hb : ℤ) (now : ℚ) (s : PSServerState)
    (hq : s.quit = false) :
    (ps_sweep hb false now s).calls =
      .is_job_done :: (s.all_nodes.filter
        (fun p => decide (hb < pyInt (now - p.2 + 1)))).map
          (fun p => .node_timeout p.1) ∧
    ∀ k : PSValue, PSCallback.node_timeout k ∈ (ps_sweep hb false now s).calls ↔
      ∃ v : ℚ, (k, v) ∈ s.all_nodes ∧ hb < pyInt (now - v + 1) := by
  have hcalls : (ps_sweep hb false now s).calls =
      .is_job_done :: ps_check_heartbeat hb now s := by
    simp [ps_sweep, hq]
  refine ⟨by simpa [ps_check_heartbeat] using hcalls, ?_⟩
  intro k
  rw [hcalls]
  simp only [List.mem_cons, ps_check_heartbeat, List.mem_map, List.mem_filter]
  constructor
  · rintro (h | ⟨⟨a, b⟩, ⟨hmem, hp⟩, heq⟩)
    · exact absurd h (by simp)
    · obtain rfl : a = k := by injection heq
      exact ⟨b, hmem, of_decide_eq_true hp⟩
  · rintro ⟨v, hmem, hp⟩
    exact Or.inr ⟨(k, v), ⟨hmem, by simpa using hp⟩, rfl⟩

/-- C5 amended witness at a concrete state: of two workers last seen at 0
and 11, a sweep at time 12 with timeout 10 times out exactly the first. -/
theorem ps_sweep_timeout_exact_witness :
    (Parasnake.ps_sweep 10 false 12
        ⟨[(.nodeId 1, 0), (.nodeId 2, 11)], false, 10⟩).calls =
      [.is_job_done, .node_timeout (.nodeId 1)] ∧
    PSCallback.node_timeout (.nodeId 1) ∈
      (Parasnake.ps_sweep 10 false 12
        ⟨[(.nodeId 1, 0), (.nodeId 2, 11)], false, 10⟩).calls := by
  have h := ps_sweep_timeout_exact 10 12
    ⟨[(.nodeId 1, 0), (.nodeId 2, 11)], false, 10⟩ rfl
  have h1n : (10 : ℤ) < pyInt ((12 : ℚ) + 1) := by norm_num [pyInt]
  have h2 : ¬ ((10 : ℤ) < pyInt ((12 : ℚ) - 11 + 1)) := by norm_num [pyInt]
  constructor
  · rw [h.1]; simp [List.filter_cons, h1n, h2]
  · exact (h.2 (.nodeId 1)).mpr
      ⟨0, List.mem_cons_self _ _, by norm_num [pyInt]⟩

/-- C7 (counterexample): an I/O failure other than a refused connection does
not produce the synthetic ConnectionError reply — ps_send_msg_return_answer
catches only ConnectionRefusedError, so the exception propagates out of the
exchange instead. -/
theorem ps_send_msg_io_failure_cex :
    Parasnake.ps_send_msg_return_answer (.io_failure 0) = Except.error 0 ∧
    Parasnake.ps_send_msg_return_answer (.io_failure 0) ≠
      Except.ok (PSValue.tag .ConnectionError) :=
  ⟨rfl, by simp [ps_send_msg_return_answer]⟩

/-- C7 (amended): a refused connection during the exchange produces the
synthetic ConnectionError reply; any other I/O failure propagates as an
uncaught exception (also fatal to the worker); and a ConnectionError reply
received in the main loop terminates the worker in every mode, with no
transport-level retry. -/
theorem ps_send_msg_conn_error (mode : WorkerMode) (e : ℕ) :
    ps_send_msg_return_answer .connection_refused =
      Except.ok (.tag .ConnectionError) ∧
    ps_send_msg_return_answer (.io_failure e) = Except.error e ∧
    ps_node_step mode (.tag .ConnectionError) = Option.none :=
  ⟨rfl, rfl, rfl⟩

/-- C8 (counterexample): at a concrete non-quitting state with one timed-out
worker, the sweep invokes the user callbacks is_job_done and node_timeout
while never acquiring the coordinator lock, so the mutex is not held across
every user-callback invocation and serialization is not guaranteed. -/
theorem ps_sweep_callbacks_unlocked_cex :
    Parasnake.ps_sweep_actions 10 false 12 ⟨[(.nodeId 1, 0)], false, 10⟩ =
      [.invoke .is_job_done, .invoke (.node_timeout (.nodeId 1))] ∧
    Parasnake.invokesLocked 0
      (Parasnake.ps_sweep_actions 10 false 12 ⟨[(.nodeId 1, 0)], false, 10⟩) = false := by
  have h1n : (10 : ℤ) < pyInt ((12 : ℚ) + 1) := by norm_num [pyInt]
  have hact : Parasnake.ps_sweep_actions 10 false 12 ⟨[(.nodeId 1, 0)], false, 10⟩ =
      [.invoke .is_job_done, .invoke (.node_timeout (.nodeId 1))] := by
    simp [ps_sweep_actions, ps_sweep, ps_check_heartbeat, List.filter_cons, h1n]
  exact ⟨hact, by rw [hact]; decide⟩

/-- C8 (amended): the coordinator's mutex is held across every invocation of
get_init_data, get_new_data and process_result (their lock wrappers acquire
self.lock around the callback), but on_timeout and is_job_done are invoked
from the sweep loop without the lock ever being acquired there. -/
theorem ps_callback_locking (id r : PSValue) (hb : ℤ) (jobDone : Bool) (now : ℚ)
    (s : PSServerState) :
    invokesLocked 0 (ps_get_init_data_lock id) = true ∧
    invokesLocked 0 (ps_get_new_data_lock id) = true ∧
    invokesLocked 0 (ps_process_result_lock id r) = true ∧
    PSLockAction.acquire ∉ ps_sweep_actions hb jobDone now s ∧
    PSLockAction.release ∉ ps_sweep_actions hb jobDone now s := by
  refine ⟨rfl, rfl, rfl, ?_, ?_⟩ <;> simp [ps_sweep_actions, List.mem_map]

/-- C9: constructing a configuration from a key whose length is not exactly
32 fails; loading JSON data carrying heartbeat_timeout ≤ 9 fails; loading
JSON data carrying quit_counter ≤ 0 fails; and when the optional keys are
absent the defaults server_address 127.0.0.1, server_port 3100,
heartbeat_timeout 300 and quit_counter 10 are used, with the stored key the
url-safe base64 encoding of the 32-byte key. -/
theorem ps_config_validation (k : List ℕ) (d : JsonConfigData) (h q : ℤ) :
    (k.length ≠ 32 → ∀ c, PSConfiguration.init k ≠ Except.ok c) ∧
    (d.heartbeat_timeout = some h → h ≤ 9 →
      ∀ c, PSConfiguration.from_json d ≠ Except.ok c) ∧
    (d.quit_counter = some q → q ≤ 0 →
      ∀ c, PSConfiguration.from_json d ≠ Except.ok c) ∧
    (k.length = 32 →
      PSConfiguration.from_json ⟨k, Option.none, Option.none, Option.none, Option.none⟩ =
        Except.ok ⟨"127.0.0.1", 3100, 300, urlsafe_b64encode k, 10⟩) := by
  refine ⟨?_, ?_, ?_, ?_⟩
  · intro hlen c
    simp [PSConfiguration.init, hlen]
  · intro hh hle c
    unfold PSConfiguration.from_json
    cases hinit : PSConfiguration.init d.secret_key with
    | error e2 => simp
    | ok c0 =>
      have h9 : ¬ (9 : ℤ) < h := by omega
      simp [hh, h9]
  · intro hqc hle c
    unfold PSConfiguration.from_json
    cases hinit : PSConfiguration.init d.secret_key with
    | error e2 => simp
    | ok c0 =>
      have h0 : ¬ (0 : ℤ) < q := by omega
      cases hhb : d.heartbeat_timeout with
      | none => simp [hqc, h0]
      | some h2 =>
        by_cases h9 : (9 : ℤ) < h2
        · simp [hqc, h9, h0]
        · simp [h9]
  · intro hlen
    unfold PSConfiguration.from_json PSConfiguration.init
    simp [hlen]

/-- C9 witness: a 31-byte key is rejected, heartbeat_timeout 1 and
quit_counter 0 are rejected, and a 32-byte key with no optional keys yields
exactly the defaults. -/
theorem ps_config_validation_witness :
    (∀ c, Parasnake.PSConfiguration.init (List.replicate 31 97) ≠ Except.ok c) ∧
    (∀ c, Parasnake.PSConfiguration.from_json
        ⟨List.replicate 32 97, Option.none, Option.none, some 1, Option.none⟩ ≠
      Except.ok c) ∧
    (∀ c, Parasnake.PSConfiguration.from_json
        ⟨List.replicate 32 97, Option.none, Option.none, Option.none, some 0⟩ ≠
      Except.ok c) ∧
    Parasnake.PSConfiguration.from_json
        ⟨List.replicate 32 97, Option.none, Option.none, Option.none, Option.none⟩ =
      Except.ok ⟨"127.0.0.1", 3100, 300,
        Parasnake.urlsafe_b64encode (List.replicate 32 97), 10⟩ := by
  refine ⟨?_, ?_, ?_, ?_⟩
  · exact (ps_config_validation (List.replicate 31 97)
      ⟨[], Option.none, Option.none, Option.none, Option.none⟩ 0 0).1 (by decide)
  · exact (ps_config_validation (List.replicate 32 97)
      ⟨List.replicate 32 97, Option.none, Option.none, some 1, Option.none⟩ 1 0).2.1
      rfl (by decide)
  · exact (ps_config_validation (List.replicate 32 97)
      ⟨List.replicate 32 97, Option.none, Option.none, Option.none, some 0⟩ 0 0).2.2.1
      rfl (by decide)
  · exact (ps_config_validation (List.replicate 32 97)
      ⟨[], Option.none, Option.none, Option.none, Option.none⟩ 0 0).2.2.2 (by decide)

end Parasnake
